import Mathlib

/-!
Verification of the test-runner execution engine (`src/runAll.ts`).

The shallow embedding below translates the control flow of `runAll.ts` into
pure Lean functions.  Effects are made explicit:

* the shared log buffer (`Logs`, spec §4.1 "FailureLog") is threaded as a
  `List LogEntry` state;
* observable actions (opening/closing the browser page, starting/stopping
  the server, running a case, logging pass/fail, calling `process.exit`)
  are recorded in an event trace;
* `process.exit(1)`, thrown usage errors (`assertUsage`) and failed
  invariant assertions (`assert`) are terminal outcomes that abort the
  surrounding control flow, mirroring how an exception or process death
  skips the rest of the TypeScript function.

Collaborators whose sources are not part of the repository snapshot
(`Logs.ts`, `utils.ts`, `logTestStatus.ts`, …) are modelled from the spec;
each such definition says so in its doc comment.
-/

/-- Severity of a log entry (spec §3 "LogEntry"). -/
inductive Severity
  | info
  | warning
  | error
deriving DecidableEq, Repr

/-- Modelled from the spec (§3): a log entry owned by the shared FailureLog —
`Logs.ts` is not under `src/`.  `runAll.ts` only constructs entries with a
`logSource` and `logText` field (line 151); the severity classification used
by `Logs.hasFailLogs` comes from the spec's LogEntry shape. -/
structure LogEntry where
  logSource : String
  logText : String
  severity : Severity
deriving DecidableEq, Repr

/-- Modelled from the spec (§4.1): `Logs.hasFailLogs(failOnWarning)`
(`Logs.ts` is not under `src/`) is true if any `error` entry exists, or —
when `failOnWarning` — any `warning` entry exists. -/
def hasFailLogs (failOnWarning : Bool) (logs : List LogEntry) : Bool :=
  logs.any fun e =>
    e.severity == Severity.error || (failOnWarning && e.severity == Severity.warning)

/-- Modelled from the spec: `humanizeTime` lives in `utils.ts`, which is not
under `src/`; the spec only requires a human-readable rendering of the
duration. -/
def humanizeTime (ms : Nat) : String :=
  toString ms ++ " ms"

/-- Per-file configuration set when the user calls `run()` (spec §3
"RunDeclaration"; consumed by `runAll.ts` as `testInfo.runInfo`). -/
structure RunInfo where
  isFlaky : Bool
  doNotFailOnWarning : Bool
  testFunctionTimeout : Nat
deriving DecidableEq, Repr

/-- Behaviour of one test-case body (`testFn` in `runAll.ts` line 214) as
observed by `runTest`: it can throw synchronously during the call, settle
(resolve or reject) at some time, or never settle. -/
inductive BodyBehavior
  | throwsSync (err : String)
  | resolvesAt (t : Nat)
  | rejectsAt (t : Nat) (err : String)
  | neverSettles
deriving DecidableEq, Repr

/-- How the `runTest` operation ends from the caller's point of view:
success, the timeout rejection, or the propagated body error. -/
inductive RunTestOutcome
  | success
  | timedOut (msg : String)
  | propagated (err : String)
deriving DecidableEq, Repr

/-- Result of the per-case executor: the outcome observed by the caller,
whether `clearTimeout` was executed, and whether a late settlement of the
body was ignored because the promise was already rejected by the timer. -/
structure RunTestResult where
  outcome : RunTestOutcome
  timerCancelled : Bool
  lateSettleIgnored : Bool
deriving DecidableEq, Repr

/-- The timeout rejection message built at `runAll.ts` line 211. -/
def timeoutMessage (timeoutMs : Nat) : String :=
  "[test] Timeout after " ++ humanizeTime timeoutMs

/-- Embedding of `runTest` (`runAll.ts` lines 202-227).  The timer is armed
(line 210) before `testFn()` is invoked (line 214).
* A synchronous throw from `testFn()` escapes `runTest` before the async
  block of lines 215-224 is created, so `clearTimeout` (line 222, in that
  block's `finally`) never runs: the error propagates but the timer stays
  armed.
* If the body settles strictly before the timer, the promise is resolved or
  rejected with the body's result and the `finally` cancels the timer.
* If the timer elapses first (line 210-212), the promise is rejected with
  the timeout message; the body's eventual settlement finds the promise
  already settled and is ignored (`clearTimeout` still runs in `finally`).
* If the body never settles, the timer rejection is the only settlement and
  the `finally` is never reached. -/
def runTest (body : BodyBehavior) (timeoutMs : Nat) : RunTestResult :=
  match body with
  | BodyBehavior.throwsSync e =>
    { outcome := RunTestOutcome.propagated e, timerCancelled := false, lateSettleIgnored := false }
  | BodyBehavior.resolvesAt t =>
    if t < timeoutMs then
      { outcome := RunTestOutcome.success, timerCancelled := true, lateSettleIgnored := false }
    else
      { outcome := RunTestOutcome.timedOut (timeoutMessage timeoutMs),
        timerCancelled := true, lateSettleIgnored := true }
  | BodyBehavior.rejectsAt t e =>
    if t < timeoutMs then
      { outcome := RunTestOutcome.propagated e, timerCancelled := true, lateSettleIgnored := false }
    else
      { outcome := RunTestOutcome.timedOut (timeoutMessage timeoutMs),
        timerCancelled := true, lateSettleIgnored := true }
  | BodyBehavior.neverSettles =>
    { outcome := RunTestOutcome.timedOut (timeoutMessage timeoutMs),
      timerCancelled := false, lateSettleIgnored := false }

/-- One registered test case (spec §3 "TestCaseDescriptor", `testInfo.tests`
element in `runAll.ts` line 150): its description, the behaviour of its
body, and the log entries its execution appends to the shared buffer. -/
structure TestCase where
  testDesc : String
  body : BodyBehavior
  logsEmitted : List LogEntry
deriving DecidableEq, Repr

/-- Whether `await runTest(...)` at `runAll.ts` line 158 lands in the
`catch` (line 159): true exactly when the executor did not succeed. -/
def caseThrew (c : TestCase) (timeoutMs : Nat) : Bool :=
  match (runTest c.body timeoutMs).outcome with
  | RunTestOutcome.success => false
  | _ => true

/-- The marker entry appended at `runAll.ts` lines 151-154 before a case
runs (`{ logSource: 'test()', logText: testDesc }`); it is diagnostic, so
its severity is `info`. -/
def testMarker (desc : String) : LogEntry :=
  { logSource := "test()", logText := desc, severity := Severity.info }

/-- Embedding of `getErrorType` (`runAll.ts` lines 198-200). -/
def getErrorType (failOnWarning : Bool) : String :=
  if !failOnWarning then "error(s)" else "error(s)/warning(s)"

/-- The reason string logged at `runAll.ts` lines 170 or 174 when a case
fails. -/
def caseFailReason (ri : RunInfo) (c : TestCase) : String :=
  if caseThrew c ri.testFunctionTimeout then
    "the test \"" ++ c.testDesc ++ "\" threw an error"
  else
    getErrorType (!ri.doNotFailOnWarning) ++ " occurred while running the test \"" ++ c.testDesc ++ "\""

/-- Observable actions of the engine, recorded in execution order.  Events
that happen at a log-buffer checkpoint carry the buffer contents observed at
that point. -/
inductive Event
  | fileStart (name : String) (isSecondAttempt : Bool) (logs : List LogEntry)
  | pageOpen
  | serverStartOk
  | serverStartThrew
  | caseStart (desc : String) (logs : List LogEntry)
  | afterEach (failed : Bool)
  | failLogged (reason : String) (isFinalAttempt : Bool)
  | passLogged
  | warnLogged (reason : String)
  | serverStop
  | pageClose
  | postShutdownCheck (failOnWarning : Bool)
  | exitCalled (code : Nat)
  | fileEnd (name : String) (success : Bool) (logs : List LogEntry)
deriving DecidableEq, Repr

/-- Result of the case loop `runTests` (`runAll.ts` lines 144-187): the
returned boolean, the final state of the shared log buffer, and the trace of
observable actions. -/
structure TestsResult where
  success : Bool
  logs : List LogEntry
  trace : List Event
deriving Repr

/-- Embedding of `runTests` (`runAll.ts` lines 144-187).  For each case, in
registration order: the marker entry is appended (lines 151-154), the case
runs and its own log output accumulates, `afterEach` is invoked with the
error flag (line 163), then failure is decided (lines 164-181) as
`err || Logs.hasFailLogs(!doNotFailOnWarning)`.  On failure the reason is
logged — `logFailure` flushes (drains) the buffer (lines 189-196) — and the
loop returns `false`.  On success the buffer is cleared (line 183) and the
loop continues. -/
def runTests (ri : RunInfo) (isFinalAttempt : Bool) :
    List TestCase → List LogEntry → TestsResult
  | [], logs => { success := true, logs := logs, trace := [] }
  | c :: rest, logs =>
    if caseThrew c ri.testFunctionTimeout
        || hasFailLogs (!ri.doNotFailOnWarning) (logs ++ [testMarker c.testDesc] ++ c.logsEmitted) then
      { success := false
        logs := []
        trace := [Event.caseStart c.testDesc logs,
                  Event.afterEach (caseThrew c ri.testFunctionTimeout),
                  Event.failLogged (caseFailReason ri c) isFinalAttempt] }
    else
      { success := (runTests ri isFinalAttempt rest []).success
        logs := (runTests ri isFinalAttempt rest []).logs
        trace := Event.caseStart c.testDesc logs
                   :: Event.afterEach (caseThrew c ri.testFunctionTimeout)
                   :: (runTests ri isFinalAttempt rest []).trace }

/-- Whether one case fails when started on an empty log buffer: it threw, or
the buffer (marker entry plus the case's own output) has disqualifying
entries under the effective fail-on-warning setting. -/
def caseFails (ri : RunInfo) (c : TestCase) : Bool :=
  caseThrew c ri.testFunctionTimeout
    || hasFailLogs (!ri.doNotFailOnWarning) ([testMarker c.testDesc] ++ c.logsEmitted)

/-- Whether the whole case loop succeeds: every case passes. -/
def casesSucceed (ri : RunInfo) (cases : List TestCase) : Bool :=
  cases.all fun c => !caseFails ri c

/-- The descriptions of the cases the loop actually starts: every case up to
and including the first failing one. -/
def executedDescs (ri : RunInfo) : List TestCase → List String
  | [] => []
  | c :: rest => if caseFails ri c then [c.testDesc] else c.testDesc :: executedDescs ri rest

/-- Descriptions carried by the `caseStart` events of a trace, in order. -/
def caseStartDescs : List Event → List String
  | [] => []
  | Event.caseStart d _ :: r => d :: caseStartDescs r
  | _ :: r => caseStartDescs r

/-- True unless the event is a checkpoint event (`fileStart`, `caseStart`,
`fileEnd`) carrying a non-empty log buffer. -/
def eventLogsOkB : Event → Bool
  | Event.fileStart _ _ l => l.isEmpty
  | Event.caseStart _ l => l.isEmpty
  | Event.fileEnd _ _ l => l.isEmpty
  | _ => true

/-- Environment signals consumed by `runAll.ts` (spec §6): `isCI()` enables
the second pass, `isParallelCI()` enables the fail-fast abort, `isWindows()`
disables the post-termination log check.  Their implementations live in
`utils.ts` / `parallel-ci.ts`, outside `src/`; here they are opaque booleans
of the environment. -/
structure Env where
  isCI : Bool
  isParallelCI : Bool
  isWindows : Bool
deriving DecidableEq, Repr

/-- Terminal outcome of running one file (`buildAndTest` /
`runServerAndTests`): a returned boolean, `process.exit` (line 102), a
thrown `assertUsage` error, or a failed internal `assert`. -/
inductive ExecOutcome
  | ok (success : Bool)
  | exited (code : Nat)
  | usageError (msg : String)
  | assertFailed
deriving DecidableEq, Repr

/-- The live per-file state populated by loading the test module
(spec §3 "FileExecutionContext"; `getCurrentTest.ts` is outside `src/`, its
`TestInfo` shape is taken from the fields `runAll.ts` reads): the optional
skip and run declarations, the optional case list, whether the
`startServer` / `terminateServer` / `afterEach` hooks were assigned, and the
observable behaviour of the server hooks — whether `startServer()` throws,
and which log entries `terminateServer()` emits. -/
structure TestInfo where
  skipped : Option String
  runInfo : Option RunInfo
  tests : Option (List TestCase)
  hasStartServer : Bool
  hasTerminateServer : Bool
  hasAfterEach : Bool
  startServerThrows : Bool
  terminateLogs : List LogEntry
deriving Repr

/-- Result of `runServerAndTests` / `buildAndTest`: outcome, final log
buffer, trace. -/
structure ServerRunResult where
  outcome : ExecOutcome
  logs : List LogEntry
  trace : List Event
deriving Repr

/-- The tail of `runServerAndTests` after a successful server start
(`runAll.ts` lines 117-141): run the cases, stop the server (which may emit
log entries), close the page, and — only when the cases succeeded — check
the buffer for entries emitted during termination with `failOnWarning`
fixed to `true` (lines 122-132), skipping the check on Windows.  Then log
pass or call `abortMaybe()` (lines 134-138: `process.exit(1)` when this is
the final attempt and the environment is parallel CI), clear the buffer
(line 139) and return. -/
def postServer (env : Env) (isFinalAttempt : Bool) (tr : TestsResult)
    (terminateLogs : List LogEntry) : ServerRunResult :=
  if tr.success then
    if hasFailLogs true (tr.logs ++ terminateLogs) && !env.isWindows then
      if isFinalAttempt && env.isParallelCI then
        { outcome := ExecOutcome.exited 1
          logs := []
          trace := [Event.pageOpen, Event.serverStartOk] ++ tr.trace
            ++ [Event.serverStop, Event.pageClose, Event.postShutdownCheck true,
                Event.failLogged (getErrorType true ++ " occurred during server termination") isFinalAttempt,
                Event.exitCalled 1] }
      else
        { outcome := ExecOutcome.ok false
          logs := []
          trace := [Event.pageOpen, Event.serverStartOk] ++ tr.trace
            ++ [Event.serverStop, Event.pageClose, Event.postShutdownCheck true,
                Event.failLogged (getErrorType true ++ " occurred during server termination") isFinalAttempt] }
    else
      { outcome := ExecOutcome.ok true
        logs := []
        trace := [Event.pageOpen, Event.serverStartOk] ++ tr.trace
          ++ [Event.serverStop, Event.pageClose, Event.postShutdownCheck true, Event.passLogged] }
  else
    if isFinalAttempt && env.isParallelCI then
      { outcome := ExecOutcome.exited 1
        logs := tr.logs ++ terminateLogs
        trace := [Event.pageOpen, Event.serverStartOk] ++ tr.trace
          ++ [Event.serverStop, Event.pageClose, Event.exitCalled 1] }
    else
      { outcome := ExecOutcome.ok false
        logs := []
        trace := [Event.pageOpen, Event.serverStartOk] ++ tr.trace
          ++ [Event.serverStop, Event.pageClose] }

/-- The run branch of `runServerAndTests` (`runAll.ts` lines 93-141), after
the declaration asserts: compute `isFinalAttempt` (line 98), open the page
(line 106), try to start the server (lines 109-115) — on a throw, log the
failure (which drains the buffer), maybe abort, and return `false` without
stopping the server or closing the page — otherwise run the cases (the
asserts of lines 146-149 fire here if `afterEach` or `tests` is missing)
and finish via `postServer`. -/
def runServerAndTestsCore (env : Env) (ri : RunInfo) (hasAE : Bool)
    (tests : Option (List TestCase)) (startThrows : Bool)
    (terminateLogs : List LogEntry) (isSecondAttempt : Bool)
    (logs : List LogEntry) : ServerRunResult :=
  if startThrows then
    if (isSecondAttempt || !ri.isFlaky) && env.isParallelCI then
      { outcome := ExecOutcome.exited 1
        logs := []
        trace := [Event.pageOpen, Event.serverStartThrew,
                  Event.failLogged "an error occurred while starting the server" (isSecondAttempt || !ri.isFlaky),
                  Event.exitCalled 1] }
    else
      { outcome := ExecOutcome.ok false
        logs := []
        trace := [Event.pageOpen, Event.serverStartThrew,
                  Event.failLogged "an error occurred while starting the server" (isSecondAttempt || !ri.isFlaky)] }
  else
    match tests, hasAE with
    | some cases, true =>
      postServer env (isSecondAttempt || !ri.isFlaky)
        (runTests ri (isSecondAttempt || !ri.isFlaky) cases logs) terminateLogs
    | _, _ =>
      { outcome := ExecOutcome.assertFailed, logs := logs,
        trace := [Event.pageOpen, Event.serverStartOk] }

/-- Embedding of `runServerAndTests` (`runAll.ts` lines 83-142).  A skipped
file is checked by `assertSkipUsage` (lines 229-239: `run()` after `skip()`
and `test()` after `skip()` are usage errors), a warning with the skip
reason is logged, and the file counts as a pass (lines 87-91).  Otherwise
the run declaration and the server hooks must be present (lines 94-96,
internal asserts), and execution continues in `runServerAndTestsCore`. -/
def runServerAndTests (env : Env) (ti : TestInfo) (isSecondAttempt : Bool)
    (logs : List LogEntry) : ServerRunResult :=
  match ti.skipped with
  | some reason =>
    if ti.runInfo.isSome then
      { outcome := ExecOutcome.usageError "You cannot call run() after calling skip()",
        logs := logs, trace := [] }
    else if ti.tests.isSome then
      { outcome := ExecOutcome.usageError "You cannot call test() after calling skip()",
        logs := logs, trace := [] }
    else
      { outcome := ExecOutcome.ok true, logs := logs, trace := [Event.warnLogged reason] }
  | none =>
    match ti.runInfo with
    | none => { outcome := ExecOutcome.assertFailed, logs := logs, trace := [] }
    | some ri =>
      if ti.hasStartServer && ti.hasTerminateServer then
        runServerAndTestsCore env ri ti.hasAfterEach ti.tests ti.startServerThrows
          ti.terminateLogs isSecondAttempt logs
      else
        { outcome := ExecOutcome.assertFailed, logs := logs, trace := [] }

/-- String suffix test over the character list (the behaviour of
`String#endsWith`, phrased on `.data` so that concrete instances evaluate). -/
def strEndsWith (s p : String) : Bool :=
  List.isSuffixOf p.data s.data

/-- Split a character list at the first occurrence of a pattern, returning
the part before the occurrence and the part after it. -/
def splitFirstAux (pat : List Char) : List Char → Option (List Char × List Char)
  | [] => none
  | c :: rest =>
    if List.isPrefixOf pat (c :: rest) then some ([], (c :: rest).drop pat.length)
    else
      match splitFirstAux pat rest with
      | some (pre, post) => some (c :: pre, post)
      | none => none

/-- The `.ts` → `.mjs` renaming of `runAll.ts` line 69:
`testFile.replace('.ts', '.mjs')` — the JavaScript string `replace` with a
string pattern replaces the first occurrence only, or returns the string
unchanged when the pattern does not occur. -/
def jsName (tsName : String) : String :=
  match splitFirstAux ".ts".data tsName.data with
  | some (pre, post) => String.mk (pre ++ ".mjs".data ++ post)
  | none => tsName

/-- Embedding of `buildAndTest` (`runAll.ts` lines 67-81): assert the file
name ends in `.ts` (line 68) and that the renamed build output ends in
`.mjs` (line 70); build and load the module — which populates the current
`TestInfo` — then run it.  When `runServerAndTests` returns a boolean the
current-test slot is reset and the boolean is returned (`fileEnd` event);
an exception or `process.exit` skips that epilogue. -/
def buildAndTest (env : Env) (name : String) (ti : TestInfo)
    (isSecondAttempt : Bool) (logs : List LogEntry) : ServerRunResult :=
  if strEndsWith name ".ts" && strEndsWith (jsName name) ".mjs" then
    match (runServerAndTests env ti isSecondAttempt logs).outcome with
    | ExecOutcome.ok success =>
      { outcome := ExecOutcome.ok success
        logs := (runServerAndTests env ti isSecondAttempt logs).logs
        trace := Event.fileStart name isSecondAttempt logs
          :: (runServerAndTests env ti isSecondAttempt logs).trace
          ++ [Event.fileEnd name success (runServerAndTests env ti isSecondAttempt logs).logs] }
    | o =>
      { outcome := o
        logs := (runServerAndTests env ti isSecondAttempt logs).logs
        trace := Event.fileStart name isSecondAttempt logs
          :: (runServerAndTests env ti isSecondAttempt logs).trace }
  else
    { outcome := ExecOutcome.assertFailed, logs := logs, trace := [] }

/-- A discovered test file: its path and, for each attempt (first or
second), the `TestInfo` that loading the file produces.  Indexing by the
attempt reflects the cache-busted re-import of `runAll.ts` line 74: a flaky
file may behave differently on its second attempt. -/
structure TestFile where
  name : String
  behavior : Bool → TestInfo

/-- Result of one pass of the scheduler over a list of files. -/
structure PassResult where
  aborted : Option ExecOutcome
  failed : List TestFile
  logs : List LogEntry
  trace : List Event

/-- One pass of `runTestFiles` (`runAll.ts` lines 46-51 and 57-62): run the
files in order, collecting the failing ones in order; an exception or
`process.exit` from `buildAndTest` aborts the pass (and the whole run). -/
def runPass (env : Env) (isSecondAttempt : Bool) :
    List TestFile → List LogEntry → PassResult
  | [], logs => { aborted := none, failed := [], logs := logs, trace := [] }
  | f :: rest, logs =>
    match (buildAndTest env f.name (f.behavior isSecondAttempt) isSecondAttempt logs).outcome with
    | ExecOutcome.ok success =>
      { aborted := (runPass env isSecondAttempt rest
          (buildAndTest env f.name (f.behavior isSecondAttempt) isSecondAttempt logs).logs).aborted
        failed :=
          (if success then [] else [f])
            ++ (runPass env isSecondAttempt rest
                (buildAndTest env f.name (f.behavior isSecondAttempt) isSecondAttempt logs).logs).failed
        logs := (runPass env isSecondAttempt rest
          (buildAndTest env f.name (f.behavior isSecondAttempt) isSecondAttempt logs).logs).logs
        trace := (buildAndTest env f.name (f.behavior isSecondAttempt) isSecondAttempt logs).trace
          ++ (runPass env isSecondAttempt rest
              (buildAndTest env f.name (f.behavior isSecondAttempt) isSecondAttempt logs).logs).trace }
    | o =>
      { aborted := some o
        failed := []
        logs := (buildAndTest env f.name (f.behavior isSecondAttempt) isSecondAttempt logs).logs
        trace := (buildAndTest env f.name (f.behavior isSecondAttempt) isSecondAttempt logs).trace }

/-- Terminal outcome of the scheduler: the list of still-failing file paths,
or an abort (`process.exit`, usage error, failed assert) that unwound past
it. -/
inductive SchedOutcome
  | done (failed : List String)
  | exited (code : Nat)
  | usageError (msg : String)
  | assertFailed
deriving DecidableEq, Repr

/-- An aborting file outcome propagated to the scheduler level. -/
def abortedOutcome : ExecOutcome → SchedOutcome
  | ExecOutcome.ok _ => SchedOutcome.done []
  | ExecOutcome.exited c => SchedOutcome.exited c
  | ExecOutcome.usageError m => SchedOutcome.usageError m
  | ExecOutcome.assertFailed => SchedOutcome.assertFailed

/-- Result of `runTestFiles`: scheduler outcome plus the combined trace. -/
structure SchedResult where
  outcome : SchedOutcome
  trace : List Event

/-- Embedding of `runTestFiles` (`runAll.ts` lines 44-65): pass 1 runs every
file once in order; outside CI the pass-1 failures are returned; in CI the
pass-1 failures are re-run, as the second attempt, in their original order,
and the pass-2 failures are returned. -/
def runTestFiles (env : Env) (files : List TestFile) (logs : List LogEntry) :
    SchedResult :=
  match (runPass env false files logs).aborted with
  | some o => { outcome := abortedOutcome o, trace := (runPass env false files logs).trace }
  | none =>
    if !env.isCI then
      { outcome := SchedOutcome.done ((runPass env false files logs).failed.map TestFile.name)
        trace := (runPass env false files logs).trace }
    else
      match (runPass env true (runPass env false files logs).failed
          (runPass env false files logs).logs).aborted with
      | some o =>
        { outcome := abortedOutcome o
          trace := (runPass env false files logs).trace
            ++ (runPass env true (runPass env false files logs).failed
                (runPass env false files logs).logs).trace }
      | none =>
        { outcome := SchedOutcome.done
            ((runPass env true (runPass env false files logs).failed
              (runPass env false files logs).logs).failed.map TestFile.name)
          trace := (runPass env false files logs).trace
            ++ (runPass env true (runPass env false files logs).failed
                (runPass env false files logs).logs).trace }

/-- True when the event is a `serverStop`. -/
def isServerStop : Event → Bool
  | Event.serverStop => true
  | _ => false

/-- True when the event is a `pageClose`. -/
def isPageClose : Event → Bool
  | Event.pageClose => true
  | _ => false

/-- True when the event is a `caseStart`. -/
def isCaseStart : Event → Bool
  | Event.caseStart _ _ => true
  | _ => false

/-- True when the event is a `failLogged`. -/
def isFailLogged : Event → Bool
  | Event.failLogged _ _ => true
  | _ => false

/-- Somewhere in the trace a `serverStop` occurs with a `pageClose` after
it. -/
def hasStopThenClose : List Event → Bool
  | [] => false
  | Event.serverStop :: r => r.any isPageClose
  | _ :: r => hasStopThenClose r

/-- The flags of the `postShutdownCheck` events of a trace, in order. -/
def postCheckFlags : List Event → List Bool
  | [] => []
  | Event.postShutdownCheck b :: r => b :: postCheckFlags r
  | _ :: r => postCheckFlags r

/-- The `(name, isSecondAttempt)` pairs of the `fileStart` events of a
trace, in order: which files were attempted, in which pass. -/
def attemptedFiles : List Event → List (String × Bool)
  | [] => []
  | Event.fileStart n s _ :: r => (n, s) :: attemptedFiles r
  | _ :: r => attemptedFiles r

theorem runTests_nil (ri : RunInfo) (fin1 : Bool) (logs : List LogEntry) :
    runTests ri fin1 [] logs = { success := true, logs := logs, trace := [] } := rfl

theorem runTests_cons (ri : RunInfo) (fin1 : Bool) (c : TestCase) (rest : List TestCase)
    (logs : List LogEntry) :
    runTests ri fin1 (c :: rest) logs =
      if caseThrew c ri.testFunctionTimeout
          || hasFailLogs (!ri.doNotFailOnWarning) (logs ++ [testMarker c.testDesc] ++ c.logsEmitted) then
        { success := false
          logs := []
          trace := [Event.caseStart c.testDesc logs,
                    Event.afterEach (caseThrew c ri.testFunctionTimeout),
                    Event.failLogged (caseFailReason ri c) fin1] }
      else
        { success := (runTests ri fin1 rest []).success
          logs := (runTests ri fin1 rest []).logs
          trace := Event.caseStart c.testDesc logs
                     :: Event.afterEach (caseThrew c ri.testFunctionTimeout)
                     :: (runTests ri fin1 rest []).trace } := rfl

theorem caseFails_cond (ri : RunInfo) (c : TestCase) :
    (caseThrew c ri.testFunctionTimeout
      || hasFailLogs (!ri.doNotFailOnWarning) ([] ++ [testMarker c.testDesc] ++ c.logsEmitted))
    = caseFails ri c := by
  simp [caseFails]

theorem runTests_success_eq (ri : RunInfo) (fin1 : Bool) (cases : List TestCase) :
    (runTests ri fin1 cases []).success = casesSucceed ri cases := by
  induction cases with
  | nil => simp [runTests_nil, casesSucceed]
  | cons c rest ih =>
    rw [runTests_cons, caseFails_cond]
    by_cases h : caseFails ri c
    · rw [if_pos h]
      simp [casesSucceed, h]
    · rw [if_neg (by simp [h])]
      simp only [casesSucceed, List.all_cons] at ih ⊢
      simp [h, ih]

theorem runTests_logs_nil (ri : RunInfo) (fin1 : Bool) (cases : List TestCase) :
    (runTests ri fin1 cases []).logs = [] := by
  induction cases with
  | nil => simp [runTests_nil]
  | cons c rest ih =>
    rw [runTests_cons, caseFails_cond]
    by_cases h : caseFails ri c
    · rw [if_pos h]
    · rw [if_neg (by simp [h])]
      exact ih

theorem runTests_descs (ri : RunInfo) (fin1 : Bool) (cases : List TestCase) :
    caseStartDescs (runTests ri fin1 cases []).trace = executedDescs ri cases := by
  induction cases with
  | nil => simp [runTests_nil, caseStartDescs, executedDescs]
  | cons c rest ih =>
    rw [runTests_cons, caseFails_cond]
    by_cases h : caseFails ri c
    · rw [if_pos h]
      simp [executedDescs, h, caseStartDescs]
    · rw [if_neg (by simp [h])]
      simp [executedDescs, h, caseStartDescs, ih]

theorem runTests_trace_logsOk (ri : RunInfo) (fin1 : Bool) (cases : List TestCase) :
    ((runTests ri fin1 cases []).trace).all eventLogsOkB = true := by
  induction cases with
  | nil => simp [runTests_nil]
  | cons c rest ih =>
    rw [runTests_cons, caseFails_cond]
    by_cases h : caseFails ri c
    · rw [if_pos h]
      simp [eventLogsOkB]
    · rw [if_neg (by simp [h])]
      simp [eventLogsOkB, ih]

theorem runTests_no_stop_no_close (ri : RunInfo) (fin1 : Bool) (cases : List TestCase)
    (logs : List LogEntry) :
    ((runTests ri fin1 cases logs).trace).any isServerStop = false
    ∧ ((runTests ri fin1 cases logs).trace).any isPageClose = false
    ∧ postCheckFlags (runTests ri fin1 cases logs).trace = [] := by
  induction cases generalizing logs with
  | nil => simp [runTests_nil, postCheckFlags]
  | cons c rest ih =>
    rw [runTests_cons]
    by_cases h : (caseThrew c ri.testFunctionTimeout
        || hasFailLogs (!ri.doNotFailOnWarning) (logs ++ [testMarker c.testDesc] ++ c.logsEmitted)) = true
    · rw [if_pos h]
      simp [isServerStop, isPageClose, postCheckFlags]
    · rw [if_neg (by simp at h; simp [h])]
      have := ih []
      simp [isServerStop, isPageClose, postCheckFlags] at this ⊢
      exact this

/-- The flakiness flag of a file's run declaration (`testInfo.runInfo.isFlaky`,
`runAll.ts` line 98); `false` when there is no run declaration. -/
def tiIsFlaky (ti : TestInfo) : Bool :=
  match ti.runInfo with
  | some ri => ri.isFlaky
  | none => false

/-- Whether an attempt at the file would succeed, ignoring the fail-fast
abort: a skipped file passes; a run file passes when the server starts, all
cases pass, and the post-termination check (always with `failOnWarning`,
skipped on Windows) finds nothing. -/
def attemptSuccess (env : Env) (ti : TestInfo) : Bool :=
  match ti.skipped, ti.runInfo, ti.tests with
  | some _, _, _ => true
  | none, some ri, some cases =>
    !ti.startServerThrows && casesSucceed ri cases
      && !(hasFailLogs true ti.terminateLogs && !env.isWindows)
  | _, _, _ => false

/-- Well-formedness of a loaded file's context: either skipped with no run
declaration and no cases, or running with a run declaration, a case list and
all three hooks assigned.  This is exactly the condition under which none of
the `assert` / `assertUsage` calls of `runAll.ts` fires. -/
def wfInfo (ti : TestInfo) : Bool :=
  match ti.skipped with
  | some _ => ti.runInfo.isNone && ti.tests.isNone
  | none => ti.runInfo.isSome && ti.tests.isSome
      && ti.hasStartServer && ti.hasTerminateServer && ti.hasAfterEach

/-- Well-formedness of a discovered file: a `.ts` name whose `.mjs` rename
passes the assert of `runAll.ts` line 70, and a well-formed context on both
attempts. -/
def wfFile (f : TestFile) : Bool :=
  strEndsWith f.name ".ts" && strEndsWith (jsName f.name) ".mjs"
    && wfInfo (f.behavior false) && wfInfo (f.behavior true)

/-- Whether an attempt of a file, started on an empty log buffer, returns
`true`. -/
def fileOk (env : Env) (f : TestFile) (isSecondAttempt : Bool) : Bool :=
  (buildAndTest env f.name (f.behavior isSecondAttempt) isSecondAttempt []).outcome
    == ExecOutcome.ok true

theorem runServerAndTests_outcome (env : Env) (ti : TestInfo) (sec : Bool)
    (hwf : wfInfo ti = true) :
    (runServerAndTests env ti sec []).outcome =
      (if attemptSuccess env ti then ExecOutcome.ok true
       else if (sec || !tiIsFlaky ti) && env.isParallelCI then ExecOutcome.exited 1
       else ExecOutcome.ok false) := by
  match hskip : ti.skipped with
  | some reason =>
    simp only [wfInfo, hskip, Bool.and_eq_true] at hwf
    have hrun : ti.runInfo = none := by
      simpa [Option.isNone_iff_eq_none] using hwf.1
    have htests : ti.tests = none := by
      simpa [Option.isNone_iff_eq_none] using hwf.2
    simp [runServerAndTests, hskip, hrun, htests, attemptSuccess]
  | none =>
    simp only [wfInfo, hskip, Bool.and_eq_true] at hwf
    obtain ⟨⟨⟨⟨hrun, htests⟩, hss⟩, hts⟩, hae⟩ := hwf
    obtain ⟨ri, hri⟩ := Option.isSome_iff_exists.mp hrun
    obtain ⟨cases, hcs⟩ := Option.isSome_iff_exists.mp htests
    by_cases hst : ti.startServerThrows = true
    · have hats : attemptSuccess env ti = false := by
        simp [attemptSuccess, hskip, hri, hcs, hst]
      simp only [runServerAndTests, hskip, hri, hss, hts, Bool.and_self, if_true,
        runServerAndTestsCore, hst]
      by_cases habort : ((sec || !ri.isFlaky) && env.isParallelCI) = true
      · simp [habort, hats, tiIsFlaky, hri]
      · simp only [Bool.not_eq_true] at habort
        simp [habort, hats, tiIsFlaky, hri]
    · simp only [Bool.not_eq_true] at hst
      have hcore : runServerAndTestsCore env ri ti.hasAfterEach ti.tests
          ti.startServerThrows ti.terminateLogs sec [] =
          postServer env (sec || !ri.isFlaky)
            (runTests ri (sec || !ri.isFlaky) cases []) ti.terminateLogs := by
        rw [hcs, hae, hst]
        rfl
      simp only [runServerAndTests, hskip, hri, hss, hts, Bool.and_self, if_true, hcore,
        postServer]
      rw [runTests_success_eq, runTests_logs_nil]
      simp only [List.nil_append]
      by_cases hcsx : casesSucceed ri cases = true
      · by_cases hfl : (hasFailLogs true ti.terminateLogs && !env.isWindows) = true
        · have hats : attemptSuccess env ti = false := by
            simp only [Bool.and_eq_true] at hfl
            simp [attemptSuccess, hskip, hri, hcs, hfl.1, hfl.2]
          by_cases habort : ((sec || !ri.isFlaky) && env.isParallelCI) = true
          · simp [hcsx, hfl, hats, habort, tiIsFlaky, hri]
          · simp only [Bool.not_eq_true] at habort
            simp [hcsx, hfl, hats, habort, tiIsFlaky, hri]
        · simp only [Bool.not_eq_true] at hfl
          have hats : attemptSuccess env ti = true := by
            simp [attemptSuccess, hskip, hri, hcs, hst, hcsx, hfl]
          simp [hcsx, hfl, hats]
      · simp only [Bool.not_eq_true] at hcsx
        have hats : attemptSuccess env ti = false := by
          simp [attemptSuccess, hskip, hri, hcs, hcsx]
        by_cases habort : ((sec || !ri.isFlaky) && env.isParallelCI) = true
        · simp [hcsx, hats, habort, tiIsFlaky, hri]
        · simp only [Bool.not_eq_true] at habort
          simp [hcsx, hats, habort, tiIsFlaky, hri]

theorem runServerAndTests_logs (env : Env) (ti : TestInfo) (sec : Bool) :
    (runServerAndTests env ti sec []).logs = []
    ∨ (runServerAndTests env ti sec []).outcome = ExecOutcome.exited 1 := by
  match hskip : ti.skipped with
  | some reason =>
    by_cases h1 : ti.runInfo.isSome <;> by_cases h2 : ti.tests.isSome <;>
      simp [runServerAndTests, hskip, h1, h2]
  | none =>
    match hri : ti.runInfo with
    | none => simp [runServerAndTests, hskip, hri]
    | some ri =>
      by_cases hb : (ti.hasStartServer && ti.hasTerminateServer) = true
      case neg => simp [runServerAndTests, hskip, hri, hb]
      case pos =>
        simp only [runServerAndTests, hskip, hri, hb, if_true]
        by_cases hst : ti.startServerThrows = true
        · simp only [runServerAndTestsCore, hst, if_true]
          by_cases habort : ((sec || !ri.isFlaky) && env.isParallelCI) = true
          · simp [habort]
          · simp only [Bool.not_eq_true] at habort
            simp [habort]
        · simp only [Bool.not_eq_true] at hst
          match hcs : ti.tests with
          | none => simp [runServerAndTestsCore, hst, hcs]
          | some cases =>
            by_cases hae : ti.hasAfterEach = true
            · have hcore : runServerAndTestsCore env ri ti.hasAfterEach (some cases)
                  ti.startServerThrows ti.terminateLogs sec [] =
                  postServer env (sec || !ri.isFlaky)
                    (runTests ri (sec || !ri.isFlaky) cases []) ti.terminateLogs := by
                rw [hae, hst]
                rfl
              rw [hcore]
              simp only [postServer]
              split_ifs <;> simp
            · simp only [Bool.not_eq_true] at hae
              simp [runServerAndTestsCore, hst, hcs, hae]

theorem runServerAndTests_trace_logsOk (env : Env) (ti : TestInfo) (sec : Bool) :
    ((runServerAndTests env ti sec []).trace).all eventLogsOkB = true := by
  match hskip : ti.skipped with
  | some reason =>
    by_cases h1 : ti.runInfo.isSome <;> by_cases h2 : ti.tests.isSome <;>
      simp [runServerAndTests, hskip, h1, h2, eventLogsOkB]
  | none =>
    match hri : ti.runInfo with
    | none => simp [runServerAndTests, hskip, hri]
    | some ri =>
      by_cases hb : (ti.hasStartServer && ti.hasTerminateServer) = true
      case neg => simp [runServerAndTests, hskip, hri, hb]
      case pos =>
        simp only [runServerAndTests, hskip, hri, hb, if_true]
        by_cases hst : ti.startServerThrows = true
        · simp only [runServerAndTestsCore, hst, if_true]
          by_cases habort : ((sec || !ri.isFlaky) && env.isParallelCI) = true
          · simp [habort, eventLogsOkB]
          · simp only [Bool.not_eq_true] at habort
            simp [habort, eventLogsOkB]
        · simp only [Bool.not_eq_true] at hst
          match hcs : ti.tests with
          | none => simp [runServerAndTestsCore, hst, hcs, eventLogsOkB]
          | some cases =>
            by_cases hae : ti.hasAfterEach = true
            · have hcore : runServerAndTestsCore env ri ti.hasAfterEach (some cases)
                  ti.startServerThrows ti.terminateLogs sec [] =
                  postServer env (sec || !ri.isFlaky)
                    (runTests ri (sec || !ri.isFlaky) cases []) ti.terminateLogs := by
                rw [hae, hst]
                rfl
              rw [hcore]
              have hts' := runTests_trace_logsOk ri (sec || !ri.isFlaky) cases
              simp only [postServer]
              split_ifs <;> simp_all [eventLogsOkB]
            · simp only [Bool.not_eq_true] at hae
              simp [runServerAndTestsCore, hst, hcs, hae, eventLogsOkB]

theorem buildAndTest_outcome (env : Env) (name : String) (ti : TestInfo) (sec : Bool)
    (logs : List LogEntry)
    (hname : (strEndsWith name ".ts" && strEndsWith (jsName name) ".mjs") = true) :
    (buildAndTest env name ti sec logs).outcome = (runServerAndTests env ti sec logs).outcome := by
  simp only [buildAndTest, hname, if_true]
  cases houtcome : (runServerAndTests env ti sec logs).outcome <;> simp [houtcome]

theorem buildAndTest_logs (env : Env) (name : String) (ti : TestInfo) (sec : Bool)
    (logs : List LogEntry)
    (hname : (strEndsWith name ".ts" && strEndsWith (jsName name) ".mjs") = true) :
    (buildAndTest env name ti sec logs).logs = (runServerAndTests env ti sec logs).logs := by
  simp only [buildAndTest, hname, if_true]
  cases houtcome : (runServerAndTests env ti sec logs).outcome <;> simp [houtcome]

theorem buildAndTest_trace (env : Env) (name : String) (ti : TestInfo) (sec : Bool)
    (logs : List LogEntry)
    (hname : (strEndsWith name ".ts" && strEndsWith (jsName name) ".mjs") = true) :
    (buildAndTest env name ti sec logs).trace =
      Event.fileStart name sec logs :: (runServerAndTests env ti sec logs).trace
        ++ (match (runServerAndTests env ti sec logs).outcome with
            | ExecOutcome.ok success =>
              [Event.fileEnd name success (runServerAndTests env ti sec logs).logs]
            | _ => []) := by
  simp only [buildAndTest, hname, if_true]
  cases houtcome : (runServerAndTests env ti sec logs).outcome <;> simp [houtcome]

theorem attemptedFiles_append (a b : List Event) :
    attemptedFiles (a ++ b) = attemptedFiles a ++ attemptedFiles b := by
  induction a with
  | nil => simp [attemptedFiles]
  | cons e r ih => cases e <;> simp [attemptedFiles, ih]

theorem runTests_attempted (ri : RunInfo) (fin1 : Bool) (cases : List TestCase)
    (logs : List LogEntry) :
    attemptedFiles (runTests ri fin1 cases logs).trace = [] := by
  induction cases generalizing logs with
  | nil => simp [runTests_nil, attemptedFiles]
  | cons c rest ih =>
    rw [runTests_cons]
    by_cases h : (caseThrew c ri.testFunctionTimeout
        || hasFailLogs (!ri.doNotFailOnWarning) (logs ++ [testMarker c.testDesc] ++ c.logsEmitted)) = true
    · rw [if_pos h]
      simp [attemptedFiles]
    · rw [if_neg (by simp at h; simp [h])]
      simp [attemptedFiles, ih []]

theorem runServerAndTests_attempted (env : Env) (ti : TestInfo) (sec : Bool)
    (logs : List LogEntry) :
    attemptedFiles (runServerAndTests env ti sec logs).trace = [] := by
  match hskip : ti.skipped with
  | some reason =>
    by_cases h1 : ti.runInfo.isSome <;> by_cases h2 : ti.tests.isSome <;>
      simp [runServerAndTests, hskip, h1, h2, attemptedFiles]
  | none =>
    match hri : ti.runInfo with
    | none => simp [runServerAndTests, hskip, hri, attemptedFiles]
    | some ri =>
      by_cases hb : (ti.hasStartServer && ti.hasTerminateServer) = true
      case neg => simp [runServerAndTests, hskip, hri, hb, attemptedFiles]
      case pos =>
        simp only [runServerAndTests, hskip, hri, hb, if_true]
        by_cases hst : ti.startServerThrows = true
        · simp only [runServerAndTestsCore, hst, if_true]
          by_cases habort : ((sec || !ri.isFlaky) && env.isParallelCI) = true
          · simp [habort, attemptedFiles]
          · simp only [Bool.not_eq_true] at habort
            simp [habort, attemptedFiles]
        · simp only [Bool.not_eq_true] at hst
          match hcs : ti.tests with
          | none => simp [runServerAndTestsCore, hst, hcs, attemptedFiles]
          | some cases =>
            by_cases hae : ti.hasAfterEach = true
            · have hcore : runServerAndTestsCore env ri ti.hasAfterEach (some cases)
                  ti.startServerThrows ti.terminateLogs sec logs =
                  postServer env (sec || !ri.isFlaky)
                    (runTests ri (sec || !ri.isFlaky) cases logs) ti.terminateLogs := by
                rw [hae, hst]
                rfl
              rw [hcore]
              have hta := runTests_attempted ri (sec || !ri.isFlaky) cases logs
              simp only [postServer]
              split_ifs <;> simp [attemptedFiles_append, attemptedFiles, hta]
            · simp only [Bool.not_eq_true] at hae
              simp [runServerAndTestsCore, hst, hcs, hae, attemptedFiles]

theorem buildAndTest_attempted (env : Env) (name : String) (ti : TestInfo) (sec : Bool)
    (logs : List LogEntry)
    (hname : (strEndsWith name ".ts" && strEndsWith (jsName name) ".mjs") = true) :
    attemptedFiles (buildAndTest env name ti sec logs).trace = [(name, sec)] := by
  rw [buildAndTest_trace env name ti sec logs hname]
  have h1 := runServerAndTests_attempted env ti sec logs
  cases houtcome : (runServerAndTests env ti sec logs).outcome <;>
    simp [attemptedFiles, attemptedFiles_append, h1]

theorem runPass_nil (env : Env) (sec : Bool) (logs : List LogEntry) :
    runPass env sec [] logs =
      { aborted := none, failed := [], logs := logs, trace := [] } := rfl

theorem wfFile_wfInfo (f : TestFile) (sec : Bool) (h : wfFile f = true) :
    wfInfo (f.behavior sec) = true := by
  simp only [wfFile, Bool.and_eq_true] at h
  cases sec
  · exact h.1.2
  · exact h.2

theorem wfFile_name (f : TestFile) (h : wfFile f = true) :
    (strEndsWith f.name ".ts" && strEndsWith (jsName f.name) ".mjs") = true := by
  simp only [wfFile, Bool.and_eq_true] at h
  simp [h.1.1.1, h.1.1.2]

theorem runServerAndTests_ok_of_noPar (env : Env) (ti : TestInfo) (sec : Bool)
    (hpc : env.isParallelCI = false) (hwf : wfInfo ti = true) :
    (runServerAndTests env ti sec []).outcome = ExecOutcome.ok (attemptSuccess env ti) := by
  rw [runServerAndTests_outcome env ti sec hwf]
  by_cases hats : attemptSuccess env ti = true
  · simp [hats]
  · simp only [Bool.not_eq_true] at hats
    simp [hats, hpc]

theorem fileOk_eq_attemptSuccess (env : Env) (f : TestFile) (sec : Bool)
    (hpc : env.isParallelCI = false) (hwf : wfFile f = true) :
    fileOk env f sec = attemptSuccess env (f.behavior sec) := by
  rw [fileOk, buildAndTest_outcome env f.name (f.behavior sec) sec [] (wfFile_name f hwf),
    runServerAndTests_ok_of_noPar env (f.behavior sec) sec hpc (wfFile_wfInfo f sec hwf)]
  cases hats : attemptSuccess env (f.behavior sec) <;> simp

theorem runPass_spec (env : Env) (sec : Bool) (files : List TestFile)
    (hpc : env.isParallelCI = false)
    (hwf : files.all wfFile = true) :
    (runPass env sec files []).aborted = none
    ∧ (runPass env sec files []).failed = files.filter (fun f => !fileOk env f sec)
    ∧ (runPass env sec files []).logs = []
    ∧ attemptedFiles (runPass env sec files []).trace = files.map (fun f => (f.name, sec)) := by
  induction files with
  | nil => simp [runPass_nil, attemptedFiles]
  | cons f rest ih =>
    simp only [List.all_cons, Bool.and_eq_true] at hwf
    obtain ⟨hwff, hwfr⟩ := hwf
    have hname := wfFile_name f hwff
    have hwfi := wfFile_wfInfo f sec hwff
    have hout' := runServerAndTests_ok_of_noPar env (f.behavior sec) sec hpc hwfi
    have hout : (buildAndTest env f.name (f.behavior sec) sec []).outcome
        = ExecOutcome.ok (attemptSuccess env (f.behavior sec)) := by
      rw [buildAndTest_outcome env f.name (f.behavior sec) sec [] hname, hout']
    have hlogs : (buildAndTest env f.name (f.behavior sec) sec []).logs = [] := by
      rw [buildAndTest_logs env f.name (f.behavior sec) sec [] hname]
      rcases runServerAndTests_logs env (f.behavior sec) sec with h | h
      · exact h
      · rw [hout'] at h
        cases h
    have hatt := buildAndTest_attempted env f.name (f.behavior sec) sec [] hname
    obtain ⟨ih1, ih2, ih3, ih4⟩ := ih hwfr
    have hfo := fileOk_eq_attemptSuccess env f sec hpc hwff
    refine ⟨?_, ?_, ?_, ?_⟩
    · simp only [runPass, hout]
      rw [hlogs]
      exact ih1
    · simp only [runPass, hout]
      rw [hlogs]
      simp only [List.filter_cons]
      by_cases hats : attemptSuccess env (f.behavior sec) = true
      · simp [hats, ih2, hfo]
      · simp only [Bool.not_eq_true] at hats
        simp [hats, ih2, hfo]
    · simp only [runPass, hout]
      rw [hlogs]
      exact ih3
    · simp only [runPass, hout]
      rw [hlogs, attemptedFiles_append, hatt, ih4]
      simp

/-- C1: the attempt scheduler runs every discovered test file exactly once
in discovery order (pass 1); a second pass is entered only in a
continuous-integration environment and re-runs exactly the files that
failed pass 1, in their original order; the scheduler returns the sequence
of files still failing after all applicable passes — the pass-1 failures
when not in CI, the pass-2 failures when in CI. -/
theorem runTestFiles_two_pass_retry (env : Env) (files : List TestFile)
    (hpc : env.isParallelCI = false)
    (hwf : files.all wfFile = true) :
    (runTestFiles env files []).outcome =
      SchedOutcome.done
        ((if env.isCI then
            (files.filter (fun f => !fileOk env f false)).filter (fun f => !fileOk env f true)
          else files.filter (fun f => !fileOk env f false)).map TestFile.name)
    ∧ attemptedFiles (runTestFiles env files []).trace =
        files.map (fun f => (f.name, false))
          ++ (if env.isCI then
                (files.filter (fun f => !fileOk env f false)).map (fun f => (f.name, true))
              else []) := by
  obtain ⟨h1, h2, h3, h4⟩ := runPass_spec env false files hpc hwf
  have hwf2 : (files.filter (fun f => !fileOk env f false)).all wfFile = true := by
    rw [List.all_eq_true] at hwf ⊢
    intro f hf
    exact hwf f (List.mem_of_mem_filter hf)
  by_cases hci : env.isCI = true
  · obtain ⟨g1, g2, g3, g4⟩ :=
      runPass_spec env true (files.filter (fun f => !fileOk env f false)) hpc hwf2
    constructor
    · simp only [runTestFiles, h1, h2, h3, hci, Bool.not_true, Bool.false_eq_true, if_false,
        g1, g2, if_true]
    · simp only [runTestFiles, h1, h2, h3, hci, Bool.not_true, Bool.false_eq_true, if_false,
        g1, if_true]
      rw [attemptedFiles_append, h4, g4]
  · simp only [Bool.not_eq_true] at hci
    constructor
    · simp only [runTestFiles, h1, hci, Bool.not_false, if_true, h2, Bool.false_eq_true,
        if_false]
    · simp only [runTestFiles, h1, hci, Bool.not_false, if_true, h4, Bool.false_eq_true,
        if_false, List.append_nil]

/-- Environment for the C1 witness: CI, not parallel CI, not Windows. -/
def c1Env : Env :=
  { isCI := true, isParallelCI := false, isWindows := false }

/-- A file context whose single case passes. -/
def c1TiPass : TestInfo :=
  { skipped := none
    runInfo := some { isFlaky := true, doNotFailOnWarning := false, testFunctionTimeout := 100 }
    tests := some [{ testDesc := "a", body := BodyBehavior.resolvesAt 0, logsEmitted := [] }]
    hasStartServer := true, hasTerminateServer := true, hasAfterEach := true
    startServerThrows := false, terminateLogs := [] }

/-- A file context whose single case throws on both attempts. -/
def c1TiFail : TestInfo :=
  { c1TiPass with
    tests := some [{ testDesc := "b", body := BodyBehavior.throwsSync "boom", logsEmitted := [] }] }

/-- C1 witness input: a passing file followed by a failing one. -/
def c1Files : List TestFile :=
  [{ name := "a.ts", behavior := fun _ => c1TiPass },
   { name := "b.ts", behavior := fun _ => c1TiFail }]

/-- C1 witness: in CI the failing file is retried once and returned; the
attempt sequence is pass 1 over both files followed by pass 2 over the
failing file. -/
theorem runTestFiles_two_pass_retry_witness :
    c1Env.isParallelCI = false ∧ c1Files.all wfFile = true
    ∧ (runTestFiles c1Env c1Files []).outcome = SchedOutcome.done ["b.ts"]
    ∧ attemptedFiles (runTestFiles c1Env c1Files []).trace
        = [("a.ts", false), ("b.ts", false), ("b.ts", true)] :=
  ⟨rfl, by decide,
   by rw [(runTestFiles_two_pass_retry c1Env c1Files rfl (by decide)).1]; decide,
   by rw [(runTestFiles_two_pass_retry c1Env c1Files rfl (by decide)).2]; decide⟩

/-- C3: in the per-file case loop, cases run in registration order and each
case's failure is `(the case threw) OR (the failure log has disqualifying
entries under effectiveFailOnWarning, which is true unless the run
declaration disables it)`; on the first failing case the loop stops and the
remaining cases are not attempted this pass; on a passing case the failure
log is cleared and the loop continues (every started case observes an empty
buffer). -/
theorem case_loop_spec (ri : RunInfo) (isFinal : Bool) (cases : List TestCase) :
    (runTests ri isFinal cases []).success = cases.all (fun c => !caseFails ri c)
    ∧ caseStartDescs (runTests ri isFinal cases []).trace = executedDescs ri cases
    ∧ ((runTests ri isFinal cases []).trace).all eventLogsOkB = true :=
  ⟨runTests_success_eq ri isFinal cases,
   runTests_descs ri isFinal cases,
   runTests_trace_logsOk ri isFinal cases⟩

theorem buildAndTest_trace_logsOk (env : Env) (name : String) (ti : TestInfo) (sec : Bool)
    (hname : (strEndsWith name ".ts" && strEndsWith (jsName name) ".mjs") = true) :
    ((buildAndTest env name ti sec []).trace).all eventLogsOkB = true := by
  rw [buildAndTest_trace env name ti sec [] hname]
  have h1 := runServerAndTests_trace_logsOk env ti sec
  cases houtcome : (runServerAndTests env ti sec []).outcome with
  | ok b =>
    have h2 : (runServerAndTests env ti sec []).logs = [] := by
      rcases runServerAndTests_logs env ti sec with h | h
      · exact h
      · rw [houtcome] at h
        cases h
    simp [eventLogsOkB, List.all_append, h1, h2]
  | exited c => simp [eventLogsOkB, List.all_append, h1]
  | usageError m => simp [eventLogsOkB, List.all_append, h1]
  | assertFailed => simp [eventLogsOkB, List.all_append, h1]

theorem runPass_trace_logsOk (env : Env) (sec : Bool) (files : List TestFile) :
    ((runPass env sec files []).trace).all eventLogsOkB = true
    ∧ ((runPass env sec files []).aborted = none → (runPass env sec files []).logs = []) := by
  induction files with
  | nil => simp [runPass_nil]
  | cons f rest ih =>
    by_cases hname : (strEndsWith f.name ".ts" && strEndsWith (jsName f.name) ".mjs") = true
    · cases houtcome : (buildAndTest env f.name (f.behavior sec) sec []).outcome with
      | ok b =>
        have hlogs : (buildAndTest env f.name (f.behavior sec) sec []).logs = [] := by
          rw [buildAndTest_logs env f.name (f.behavior sec) sec [] hname]
          rcases runServerAndTests_logs env (f.behavior sec) sec with h | h
          · exact h
          · rw [buildAndTest_outcome env f.name (f.behavior sec) sec [] hname, h] at houtcome
            cases houtcome
        constructor
        · simp only [runPass, houtcome, hlogs]
          rw [List.all_append]
          simp [buildAndTest_trace_logsOk env f.name (f.behavior sec) sec hname, ih.1]
        · simp only [runPass, houtcome, hlogs]
          exact ih.2
      | exited c =>
        simp only [runPass, houtcome]
        simp [buildAndTest_trace_logsOk env f.name (f.behavior sec) sec hname]
      | usageError m =>
        simp only [runPass, houtcome]
        simp [buildAndTest_trace_logsOk env f.name (f.behavior sec) sec hname]
      | assertFailed =>
        simp only [runPass, houtcome]
        simp [buildAndTest_trace_logsOk env f.name (f.behavior sec) sec hname]
    · simp only [Bool.not_eq_true] at hname
      have hbt : buildAndTest env f.name (f.behavior sec) sec [] =
          { outcome := ExecOutcome.assertFailed, logs := [], trace := [] } := by
        simp [buildAndTest, hname]
      simp [runPass, hbt]

/-- C8: the shared failure log is empty at the start of every case and at
the start of every file, and empty again at the end of every file's
execution, whatever the file outcome: every checkpoint event (`fileStart`,
`caseStart`, `fileEnd`) of a whole scheduler run observes an empty
buffer. -/
theorem failure_log_checkpoints_empty (env : Env) (files : List TestFile) :
    ((runTestFiles env files []).trace).all eventLogsOkB = true := by
  have hp1 := runPass_trace_logsOk env false files
  cases haborted : (runPass env false files []).aborted with
  | some o =>
    simp only [runTestFiles, haborted]
    exact hp1.1
  | none =>
    by_cases hci : env.isCI = true
    · have hnil := hp1.2 haborted
      have hp2 := runPass_trace_logsOk env true (runPass env false files []).failed
      cases haborted2 : (runPass env true (runPass env false files []).failed []).aborted with
      | some o =>
        simp only [runTestFiles, haborted, hci, Bool.not_true, Bool.false_eq_true, if_false,
          hnil, haborted2]
        rw [List.all_append]
        simp [hp1.1, hp2.1]
      | none =>
        simp only [runTestFiles, haborted, hci, Bool.not_true, Bool.false_eq_true, if_false,
          hnil, haborted2]
        rw [List.all_append]
        simp [hp1.1, hp2.1]
    · simp only [Bool.not_eq_true] at hci
      simp only [runTestFiles, haborted, hci, Bool.not_false, if_true]
      exact hp1.1

/-- Whether the body settles (resolves, rejects, or throws during the call)
strictly before the timer elapses. -/
def settlesBeforeTimer : BodyBehavior → Nat → Bool
  | BodyBehavior.throwsSync _, _ => true
  | BodyBehavior.resolvesAt t, d => decide (t < d)
  | BodyBehavior.rejectsAt t _, d => decide (t < d)
  | BodyBehavior.neverSettles, _ => false

/-- C5 counterexample: for a body whose call throws synchronously, the run
fails with the propagated error but the timer is NOT cancelled — `testFn()`
at `runAll.ts` line 214 throws before the async block holding the
`clearTimeout` of line 222 is created — contradicting the claim that a
rejection of the body's call cancels the timer. -/
theorem runTest_sync_throw_timer_cex :
    (runTest (BodyBehavior.throwsSync "boom") 100).outcome = RunTestOutcome.propagated "boom"
    ∧ (runTest (BodyBehavior.throwsSync "boom") 100).timerCancelled = false := by
  decide

/-- C5 (amended): the case executor settles with exactly one of success,
TimeoutError or PropagatedError.  If the body's awaitable rejects before the
timeout, the run fails immediately with the propagated error and the timer
is cancelled; if the body's call throws synchronously, the run fails
immediately with the propagated error but the timer is left armed; if the
timer elapses first, the run fails with a TimeoutError carrying the
human-readable duration and the body's eventual late settlement is ignored;
success happens exactly when the body resolves before the timeout. -/
theorem runTest_settles_spec :
    (∀ (t timeoutMs : Nat) (e : String), t < timeoutMs →
        (runTest (BodyBehavior.rejectsAt t e) timeoutMs).outcome = RunTestOutcome.propagated e
        ∧ (runTest (BodyBehavior.rejectsAt t e) timeoutMs).timerCancelled = true)
    ∧ (∀ (timeoutMs : Nat) (e : String),
        (runTest (BodyBehavior.throwsSync e) timeoutMs).outcome = RunTestOutcome.propagated e
        ∧ (runTest (BodyBehavior.throwsSync e) timeoutMs).timerCancelled = false)
    ∧ (∀ (bb : BodyBehavior) (timeoutMs : Nat), settlesBeforeTimer bb timeoutMs = false →
        (runTest bb timeoutMs).outcome
          = RunTestOutcome.timedOut ("[test] Timeout after " ++ humanizeTime timeoutMs))
    ∧ (∀ (t timeoutMs : Nat) (e : String), timeoutMs ≤ t →
        (runTest (BodyBehavior.resolvesAt t) timeoutMs).lateSettleIgnored = true
        ∧ (runTest (BodyBehavior.rejectsAt t e) timeoutMs).lateSettleIgnored = true)
    ∧ (∀ (bb : BodyBehavior) (timeoutMs : Nat),
        ((runTest bb timeoutMs).outcome = RunTestOutcome.success)
          ↔ (∃ t, bb = BodyBehavior.resolvesAt t ∧ t < timeoutMs)) := by
  refine ⟨?_, ?_, ?_, ?_, ?_⟩
  · intro t timeoutMs e h
    simp [runTest, h]
  · intro timeoutMs e
    simp [runTest]
  · intro bb timeoutMs h
    cases bb <;> simp [settlesBeforeTimer, runTest, timeoutMessage] at h ⊢ <;>
      simp [Nat.not_lt.mpr h]
  · intro t timeoutMs e h
    have h' : ¬(t < timeoutMs) := by omega
    simp [runTest, h']
  · intro bb timeoutMs
    cases bb with
    | throwsSync e => simp [runTest]
    | resolvesAt t =>
      by_cases h : t < timeoutMs
      · simp [runTest, h]
      · simp [runTest, h]
    | rejectsAt t e =>
      by_cases h : t < timeoutMs
      · simp [runTest, h]
      · simp [runTest, h]
    | neverSettles => simp [runTest]

/-- C5 witness: the amended theorem applied at concrete inputs — an early
rejection, a never-settling body, and late settlements at time 7 against a
5 ms timeout. -/
theorem runTest_settles_spec_witness :
    ((0 : Nat) < 5
      ∧ ((runTest (BodyBehavior.rejectsAt 0 "e") 5).outcome = RunTestOutcome.propagated "e"
         ∧ (runTest (BodyBehavior.rejectsAt 0 "e") 5).timerCancelled = true))
    ∧ (settlesBeforeTimer BodyBehavior.neverSettles 5 = false
       ∧ (runTest BodyBehavior.neverSettles 5).outcome
           = RunTestOutcome.timedOut ("[test] Timeout after " ++ humanizeTime 5))
    ∧ ((5 : Nat) ≤ 7
       ∧ ((runTest (BodyBehavior.resolvesAt 7) 5).lateSettleIgnored = true
          ∧ (runTest (BodyBehavior.rejectsAt 7 "x") 5).lateSettleIgnored = true)) :=
  ⟨⟨by decide, runTest_settles_spec.1 0 5 "e" (by decide)⟩,
   ⟨by decide, runTest_settles_spec.2.2.1 BodyBehavior.neverSettles 5 (by decide)⟩,
   ⟨by decide, runTest_settles_spec.2.2.2.1 7 5 "x" (by decide)⟩⟩

theorem hasStopThenClose_mid : ∀ (l rest : List Event), l.any isServerStop = false →
    hasStopThenClose (l ++ Event.serverStop :: Event.pageClose :: rest) = true
  | [], rest, _ => by simp [hasStopThenClose, isPageClose]
  | e :: r, rest, h => by
    cases e with
    | serverStop => simp [List.any_cons, isServerStop] at h
    | fileStart n s lg =>
      exact hasStopThenClose_mid r rest (by simpa [isServerStop] using h)
    | pageOpen => exact hasStopThenClose_mid r rest (by simpa [isServerStop] using h)
    | serverStartOk => exact hasStopThenClose_mid r rest (by simpa [isServerStop] using h)
    | serverStartThrew => exact hasStopThenClose_mid r rest (by simpa [isServerStop] using h)
    | caseStart d lg => exact hasStopThenClose_mid r rest (by simpa [isServerStop] using h)
    | afterEach b => exact hasStopThenClose_mid r rest (by simpa [isServerStop] using h)
    | failLogged m b => exact hasStopThenClose_mid r rest (by simpa [isServerStop] using h)
    | passLogged => exact hasStopThenClose_mid r rest (by simpa [isServerStop] using h)
    | warnLogged m => exact hasStopThenClose_mid r rest (by simpa [isServerStop] using h)
    | pageClose => exact hasStopThenClose_mid r rest (by simpa [isServerStop] using h)
    | postShutdownCheck b => exact hasStopThenClose_mid r rest (by simpa [isServerStop] using h)
    | exitCalled c => exact hasStopThenClose_mid r rest (by simpa [isServerStop] using h)
    | fileEnd n s lg => exact hasStopThenClose_mid r rest (by simpa [isServerStop] using h)

/-- C2 counterexample: a file whose server-start hook throws, with the stop
hook assigned.  The file fails with no case running, but — contrary to the
claim — the stop hook is never invoked and the page is never closed:
`runAll.ts` line 114 returns from the catch block before lines 119-120. -/
theorem server_stop_skipped_on_start_failure_cex :
    (({ skipped := none
        runInfo := some { isFlaky := true, doNotFailOnWarning := false, testFunctionTimeout := 100 }
        tests := some [{ testDesc := "a", body := BodyBehavior.resolvesAt 0, logsEmitted := [] }]
        hasStartServer := true, hasTerminateServer := true, hasAfterEach := true
        startServerThrows := true, terminateLogs := [] } : TestInfo).hasTerminateServer = true)
    ∧ ((runServerAndTests { isCI := false, isParallelCI := false, isWindows := false }
        { skipped := none
          runInfo := some { isFlaky := true, doNotFailOnWarning := false, testFunctionTimeout := 100 }
          tests := some [{ testDesc := "a", body := BodyBehavior.resolvesAt 0, logsEmitted := [] }]
          hasStartServer := true, hasTerminateServer := true, hasAfterEach := true
          startServerThrows := true, terminateLogs := [] } false []).trace).any isServerStop = false
    ∧ ((runServerAndTests { isCI := false, isParallelCI := false, isWindows := false }
        { skipped := none
          runInfo := some { isFlaky := true, doNotFailOnWarning := false, testFunctionTimeout := 100 }
          tests := some [{ testDesc := "a", body := BodyBehavior.resolvesAt 0, logsEmitted := [] }]
          hasStartServer := true, hasTerminateServer := true, hasAfterEach := true
          startServerThrows := true, terminateLogs := [] } false []).trace).any isPageClose = false
    ∧ (runServerAndTests { isCI := false, isParallelCI := false, isWindows := false }
        { skipped := none
          runInfo := some { isFlaky := true, doNotFailOnWarning := false, testFunctionTimeout := 100 }
          tests := some [{ testDesc := "a", body := BodyBehavior.resolvesAt 0, logsEmitted := [] }]
          hasStartServer := true, hasTerminateServer := true, hasAfterEach := true
          startServerThrows := true, terminateLogs := [] } false []).outcome
        = ExecOutcome.ok false := by
  decide

/-- C2 (amended): for every file that reaches the Running state and whose
server-start hook succeeds, the server-stop hook is invoked and then the
page is closed, in that order, regardless of how case execution ended; when
the server-start hook itself throws, the file fails with no case running,
and neither the stop hook nor the page close happens. -/
theorem server_release_order (env : Env) (ti : TestInfo) (sec : Bool) (ri : RunInfo)
    (cases : List TestCase)
    (hskip : ti.skipped = none) (hri : ti.runInfo = some ri) (hcs : ti.tests = some cases)
    (hss : ti.hasStartServer = true) (hts : ti.hasTerminateServer = true)
    (hae : ti.hasAfterEach = true) :
    (ti.startServerThrows = false →
       hasStopThenClose (runServerAndTests env ti sec []).trace = true)
    ∧ (ti.startServerThrows = true →
       ((runServerAndTests env ti sec []).trace).any isServerStop = false
       ∧ ((runServerAndTests env ti sec []).trace).any isPageClose = false
       ∧ ((runServerAndTests env ti sec []).trace).any isCaseStart = false
       ∧ ((runServerAndTests env ti sec []).outcome = ExecOutcome.ok false
          ∨ (runServerAndTests env ti sec []).outcome = ExecOutcome.exited 1)) := by
  constructor
  · intro hst
    have hcore : runServerAndTestsCore env ri ti.hasAfterEach ti.tests ti.startServerThrows
        ti.terminateLogs sec [] =
        postServer env (sec || !ri.isFlaky)
          (runTests ri (sec || !ri.isFlaky) cases []) ti.terminateLogs := by
      rw [hcs, hae, hst]
      rfl
    simp only [runServerAndTests, hskip, hri, hss, hts, Bool.and_self, if_true, hcore,
      postServer]
    have hns := (runTests_no_stop_no_close ri (sec || !ri.isFlaky) cases []).1
    split_ifs <;>
      · dsimp only
        exact hasStopThenClose_mid _ _ (by simp [List.any_append, isServerStop, hns])
  · intro hst
    simp only [runServerAndTests, hskip, hri, hss, hts, Bool.and_self, if_true,
      runServerAndTestsCore, hst, if_true]
    by_cases habort : ((sec || !ri.isFlaky) && env.isParallelCI) = true
    · simp [habort, isServerStop, isPageClose, isCaseStart]
    · simp only [Bool.not_eq_true] at habort
      simp [habort, isServerStop, isPageClose, isCaseStart]

/-- C2 witness: the amended theorem applied to a concrete running file whose
server start succeeds (stop-then-close appears in the trace) and to one
whose server start throws (no stop, no close, no case, file fails). -/
theorem server_release_order_witness :
    hasStopThenClose (runServerAndTests { isCI := false, isParallelCI := false, isWindows := false }
      { skipped := none
        runInfo := some { isFlaky := true, doNotFailOnWarning := false, testFunctionTimeout := 100 }
        tests := some [{ testDesc := "a", body := BodyBehavior.throwsSync "x", logsEmitted := [] }]
        hasStartServer := true, hasTerminateServer := true, hasAfterEach := true
        startServerThrows := false, terminateLogs := [] } false []).trace = true
    ∧ ((runServerAndTests { isCI := false, isParallelCI := false, isWindows := false }
        { skipped := none
          runInfo := some { isFlaky := true, doNotFailOnWarning := false, testFunctionTimeout := 100 }
          tests := some [{ testDesc := "a", body := BodyBehavior.resolvesAt 0, logsEmitted := [] }]
          hasStartServer := true, hasTerminateServer := true, hasAfterEach := true
          startServerThrows := true, terminateLogs := [] } false []).trace).any isCaseStart
        = false :=
  ⟨(server_release_order _ _ false _ _ rfl rfl rfl rfl rfl rfl).1 rfl,
   ((server_release_order _ _ false _ _ rfl rfl rfl rfl rfl rfl).2 rfl).2.2.1⟩

theorem postCheckFlags_append (a b : List Event) :
    postCheckFlags (a ++ b) = postCheckFlags a ++ postCheckFlags b := by
  induction a with
  | nil => simp [postCheckFlags]
  | cons e r ih => cases e <;> simp [postCheckFlags, ih]

theorem runServerAndTests_run_eq (env : Env) (ti : TestInfo) (sec : Bool) (ri : RunInfo)
    (cases : List TestCase)
    (hskip : ti.skipped = none) (hri : ti.runInfo = some ri) (hcs : ti.tests = some cases)
    (hss : ti.hasStartServer = true) (hts : ti.hasTerminateServer = true)
    (hae : ti.hasAfterEach = true) (hst : ti.startServerThrows = false) :
    runServerAndTests env ti sec [] =
      postServer env (sec || !ri.isFlaky)
        (runTests ri (sec || !ri.isFlaky) cases []) ti.terminateLogs := by
  have hcore : runServerAndTestsCore env ri ti.hasAfterEach ti.tests ti.startServerThrows
      ti.terminateLogs sec [] =
      postServer env (sec || !ri.isFlaky)
        (runTests ri (sec || !ri.isFlaky) cases []) ti.terminateLogs := by
    rw [hcs, hae, hst]
    rfl
  simp only [runServerAndTests, hskip, hri, hss, hts, Bool.and_self, if_true, hcore]

/-- C4: after the server is stopped, the failure log is checked for
post-shutdown entries — except on Windows, where process teardown emits
spurious noise; when disqualifying entries are found the whole file is
marked failed (with a failure reason logged) even though every case
passed. -/
theorem post_termination_check_fails_file (env : Env) (ti : TestInfo) (sec : Bool)
    (ri : RunInfo) (cases : List TestCase)
    (hskip : ti.skipped = none) (hri : ti.runInfo = some ri) (hcs : ti.tests = some cases)
    (hss : ti.hasStartServer = true) (hts : ti.hasTerminateServer = true)
    (hae : ti.hasAfterEach = true) (hst : ti.startServerThrows = false)
    (hpass : casesSucceed ri cases = true)
    (hterm : hasFailLogs true ti.terminateLogs = true)
    (hpc : env.isParallelCI = false) :
    (env.isWindows = false →
       (runServerAndTests env ti sec []).outcome = ExecOutcome.ok false
       ∧ ((runServerAndTests env ti sec []).trace).any isFailLogged = true)
    ∧ (env.isWindows = true →
       (runServerAndTests env ti sec []).outcome = ExecOutcome.ok true) := by
  rw [runServerAndTests_run_eq env ti sec ri cases hskip hri hcs hss hts hae hst]
  have hsucc := runTests_success_eq ri (sec || !ri.isFlaky) cases
  have hlogs := runTests_logs_nil ri (sec || !ri.isFlaky) cases
  constructor
  · intro hwin
    simp only [postServer, hsucc, hpass, if_true, hlogs, List.nil_append, hterm, hwin,
      Bool.not_false, Bool.and_self, hpc, Bool.and_false, Bool.false_eq_true, if_false]
    constructor
    · trivial
    · simp [List.any_append, isFailLogged]
  · intro hwin
    simp only [postServer, hsucc, hpass, if_true, hlogs, List.nil_append, hterm, hwin,
      Bool.not_true, Bool.and_false, Bool.false_eq_true, if_false]

/-- C4 witness: a file whose single case passes but whose server-stop hook
emits an `error` entry fails overall off Windows, and passes on Windows
where the check is skipped. -/
theorem post_termination_check_fails_file_witness :
    casesSucceed { isFlaky := true, doNotFailOnWarning := false, testFunctionTimeout := 100 }
        [{ testDesc := "a", body := BodyBehavior.resolvesAt 0, logsEmitted := [] }] = true
    ∧ hasFailLogs true [{ logSource := "stderr", logText := "teardown", severity := Severity.error }] = true
    ∧ (runServerAndTests { isCI := false, isParallelCI := false, isWindows := false }
        { skipped := none
          runInfo := some { isFlaky := true, doNotFailOnWarning := false, testFunctionTimeout := 100 }
          tests := some [{ testDesc := "a", body := BodyBehavior.resolvesAt 0, logsEmitted := [] }]
          hasStartServer := true, hasTerminateServer := true, hasAfterEach := true
          startServerThrows := false
          terminateLogs := [{ logSource := "stderr", logText := "teardown", severity := Severity.error }] }
        false []).outcome = ExecOutcome.ok false
    ∧ (runServerAndTests { isCI := false, isParallelCI := false, isWindows := true }
        { skipped := none
          runInfo := some { isFlaky := true, doNotFailOnWarning := false, testFunctionTimeout := 100 }
          tests := some [{ testDesc := "a", body := BodyBehavior.resolvesAt 0, logsEmitted := [] }]
          hasStartServer := true, hasTerminateServer := true, hasAfterEach := true
          startServerThrows := false
          terminateLogs := [{ logSource := "stderr", logText := "teardown", severity := Severity.error }] }
        false []).outcome = ExecOutcome.ok true :=
  ⟨by decide, by decide,
   ((post_termination_check_fails_file _ _ false _ _ rfl rfl rfl rfl rfl rfl rfl (by decide)
      (by decide) rfl).1 rfl).1,
   (post_termination_check_fails_file _ _ false _ _ rfl rfl rfl rfl rfl rfl rfl (by decide)
      (by decide) rfl).2 rfl⟩

/-- C10: the post-server-termination log check is evaluated with
`failOnWarning` fixed to `true` — even for a file whose run declaration
disables fail-on-warning for its cases — and it is performed exactly when
case execution itself succeeded (and the server started). -/
theorem post_check_always_fail_on_warning (env : Env) (ti : TestInfo) (sec : Bool)
    (ri : RunInfo) (cases : List TestCase)
    (hskip : ti.skipped = none) (hri : ti.runInfo = some ri) (hcs : ti.tests = some cases)
    (hss : ti.hasStartServer = true) (hts : ti.hasTerminateServer = true)
    (hae : ti.hasAfterEach = true) :
    postCheckFlags (runServerAndTests env ti sec []).trace
      = (if !ti.startServerThrows && casesSucceed ri cases then [true] else [])
    ∧ (ri.doNotFailOnWarning = true → ti.startServerThrows = false →
       casesSucceed ri cases = true → env.isWindows = false → env.isParallelCI = false →
       hasFailLogs true ti.terminateLogs = true →
       (runServerAndTests env ti sec []).outcome = ExecOutcome.ok false) := by
  constructor
  · by_cases hst : ti.startServerThrows = true
    · simp only [runServerAndTests, hskip, hri, hss, hts, Bool.and_self, if_true,
        runServerAndTestsCore, hst, if_true]
      by_cases habort : ((sec || !ri.isFlaky) && env.isParallelCI) = true
      · simp [habort, postCheckFlags]
      · simp only [Bool.not_eq_true] at habort
        simp [habort, postCheckFlags]
    · simp only [Bool.not_eq_true] at hst
      rw [runServerAndTests_run_eq env ti sec ri cases hskip hri hcs hss hts hae hst]
      have hsucc := runTests_success_eq ri (sec || !ri.isFlaky) cases
      have hpost := (runTests_no_stop_no_close ri (sec || !ri.isFlaky) cases []).2.2
      by_cases hcsx : casesSucceed ri cases = true
      · simp only [postServer, hsucc, hcsx, if_true, hst, Bool.not_false, Bool.true_and]
        split_ifs <;> simp [postCheckFlags_append, postCheckFlags, hpost]
      · simp only [Bool.not_eq_true] at hcsx
        simp only [postServer, hsucc, hcsx, Bool.false_eq_true, if_false, hst, Bool.not_false,
          Bool.true_and, Bool.and_false]
        split_ifs <;> simp [postCheckFlags_append, postCheckFlags, hpost]
  · intro hwarn hst hcsx hwin hpc hterm
    rw [runServerAndTests_run_eq env ti sec ri cases hskip hri hcs hss hts hae hst]
    have hsucc := runTests_success_eq ri (sec || !ri.isFlaky) cases
    have hlogs := runTests_logs_nil ri (sec || !ri.isFlaky) cases
    simp only [postServer, hsucc, hcsx, if_true, hlogs, List.nil_append, hterm, hwin,
      Bool.not_false, Bool.and_self, hpc, Bool.and_false, Bool.false_eq_true, if_false]

/-- C10 witness: a run declaration that disables fail-on-warning for its
cases, a passing case, and a warning-only entry emitted during server
termination: the post-shutdown check still runs with `failOnWarning = true`
and fails the file. -/
theorem post_check_always_fail_on_warning_witness :
    hasFailLogs true [{ logSource := "stderr", logText := "warn", severity := Severity.warning }] = true
    ∧ hasFailLogs false [{ logSource := "stderr", logText := "warn", severity := Severity.warning }] = false
    ∧ postCheckFlags (runServerAndTests { isCI := false, isParallelCI := false, isWindows := false }
        { skipped := none
          runInfo := some { isFlaky := true, doNotFailOnWarning := true, testFunctionTimeout := 100 }
          tests := some [{ testDesc := "a", body := BodyBehavior.resolvesAt 0, logsEmitted := [] }]
          hasStartServer := true, hasTerminateServer := true, hasAfterEach := true
          startServerThrows := false
          terminateLogs := [{ logSource := "stderr", logText := "warn", severity := Severity.warning }] }
        false []).trace
      = (if !(false : Bool)
            && casesSucceed { isFlaky := true, doNotFailOnWarning := true, testFunctionTimeout := 100 }
                [{ testDesc := "a", body := BodyBehavior.resolvesAt 0, logsEmitted := [] }]
         then [true] else [])
    ∧ (runServerAndTests { isCI := false, isParallelCI := false, isWindows := false }
        { skipped := none
          runInfo := some { isFlaky := true, doNotFailOnWarning := true, testFunctionTimeout := 100 }
          tests := some [{ testDesc := "a", body := BodyBehavior.resolvesAt 0, logsEmitted := [] }]
          hasStartServer := true, hasTerminateServer := true, hasAfterEach := true
          startServerThrows := false
          terminateLogs := [{ logSource := "stderr", logText := "warn", severity := Severity.warning }] }
        false []).outcome = ExecOutcome.ok false :=
  ⟨by decide, by decide,
   (post_check_always_fail_on_warning _ _ false _ _ rfl rfl rfl rfl rfl rfl).1,
   (post_check_always_fail_on_warning _ _ false _ _ rfl rfl rfl rfl rfl rfl).2 rfl rfl
     (by decide) rfl rfl (by decide)⟩

theorem runTests_fail_logged (ri : RunInfo) (fin1 : Bool) (cases : List TestCase)
    (logs : List LogEntry) (h : (runTests ri fin1 cases logs).success = false) :
    ((runTests ri fin1 cases logs).trace).any isFailLogged = true := by
  induction cases generalizing logs with
  | nil => rw [runTests_nil] at h; cases h
  | cons c rest ih =>
    rw [runTests_cons] at h ⊢
    by_cases hc : (caseThrew c ri.testFunctionTimeout
        || hasFailLogs (!ri.doNotFailOnWarning) (logs ++ [testMarker c.testDesc] ++ c.logsEmitted)) = true
    · rw [if_pos hc]
      simp [isFailLogged]
    · rw [if_neg (by simp at hc; simp [hc])] at h ⊢
      simp only [List.any_cons, isFailLogged, Bool.false_or]
      exact ih [] h

/-- C7: for every file with a skip declaration, no test case ever executes
and the file is recorded as a pass (with the skip reason logged as a
warning); if such a file also has a run declaration or registered cases,
a usage error is raised, never a silent no-op. -/
theorem skip_no_case_runs_and_usage_errors (env : Env) (ti : TestInfo) (sec : Bool)
    (reason : String) (hskip : ti.skipped = some reason) :
    (ti.runInfo = none → ti.tests = none →
       (runServerAndTests env ti sec []).outcome = ExecOutcome.ok true
       ∧ (runServerAndTests env ti sec []).trace = [Event.warnLogged reason]
       ∧ ((runServerAndTests env ti sec []).trace).any isCaseStart = false)
    ∧ (∀ ri, ti.runInfo = some ri →
       (runServerAndTests env ti sec []).outcome
         = ExecOutcome.usageError "You cannot call run() after calling skip()")
    ∧ (∀ cs, ti.runInfo = none → ti.tests = some cs →
       (runServerAndTests env ti sec []).outcome
         = ExecOutcome.usageError "You cannot call test() after calling skip()") := by
  refine ⟨?_, ?_, ?_⟩
  · intro hrun htests
    simp [runServerAndTests, hskip, hrun, htests, isCaseStart]
  · intro ri hri
    simp [runServerAndTests, hskip, hri]
  · intro cs hrun htests
    simp [runServerAndTests, hskip, hrun, htests]

/-- C7 witness: a cleanly skipped file passes without any case starting; a
skipped file with a run declaration, or with registered cases, raises the
matching usage error. -/
theorem skip_no_case_runs_and_usage_errors_witness :
    ((runServerAndTests { isCI := false, isParallelCI := false, isWindows := false }
        { skipped := some "not supported here", runInfo := none, tests := none
          hasStartServer := false, hasTerminateServer := false, hasAfterEach := false
          startServerThrows := false, terminateLogs := [] } false []).outcome
      = ExecOutcome.ok true
     ∧ (runServerAndTests { isCI := false, isParallelCI := false, isWindows := false }
        { skipped := some "not supported here", runInfo := none, tests := none
          hasStartServer := false, hasTerminateServer := false, hasAfterEach := false
          startServerThrows := false, terminateLogs := [] } false []).trace
      = [Event.warnLogged "not supported here"]
     ∧ ((runServerAndTests { isCI := false, isParallelCI := false, isWindows := false }
        { skipped := some "not supported here", runInfo := none, tests := none
          hasStartServer := false, hasTerminateServer := false, hasAfterEach := false
          startServerThrows := false, terminateLogs := [] } false []).trace).any isCaseStart = false)
    ∧ (runServerAndTests { isCI := false, isParallelCI := false, isWindows := false }
        { skipped := some "r", runInfo := some { isFlaky := false, doNotFailOnWarning := false, testFunctionTimeout := 5 }
          tests := none
          hasStartServer := false, hasTerminateServer := false, hasAfterEach := false
          startServerThrows := false, terminateLogs := [] } false []).outcome
      = ExecOutcome.usageError "You cannot call run() after calling skip()"
    ∧ (runServerAndTests { isCI := false, isParallelCI := false, isWindows := false }
        { skipped := some "r", runInfo := none
          tests := some [{ testDesc := "t", body := BodyBehavior.resolvesAt 0, logsEmitted := [] }]
          hasStartServer := false, hasTerminateServer := false, hasAfterEach := false
          startServerThrows := false, terminateLogs := [] } false []).outcome
      = ExecOutcome.usageError "You cannot call test() after calling skip()" :=
  ⟨(skip_no_case_runs_and_usage_errors _ _ false "not supported here" rfl).1 rfl rfl,
   (skip_no_case_runs_and_usage_errors _ _ false "r" rfl).2.1 _ rfl,
   (skip_no_case_runs_and_usage_errors _ _ false "r" rfl).2.2 _ rfl rfl⟩

/-- C9: every file-level failure — server-start error, case throw, case
timeout, log-detected failure — is caught inside the per-file executor and
converted into a pass/fail boolean plus a logged failure reason: for
well-formed inputs the scheduler always returns a plain result (no thrown
error unwinds past it outside the parallel-CI abort), and every failing
file attempt carries a `failLogged` event in its trace. -/
theorem file_failures_contained :
    (∀ (env : Env) (files : List TestFile), env.isParallelCI = false →
        files.all wfFile = true →
        ∃ failed, (runTestFiles env files []).outcome = SchedOutcome.done failed)
    ∧ (∀ (env : Env) (ti : TestInfo) (sec : Bool) (ri : RunInfo) (cases : List TestCase),
        ti.skipped = none → ti.runInfo = some ri → ti.tests = some cases →
        ti.hasStartServer = true → ti.hasTerminateServer = true → ti.hasAfterEach = true →
        ((runServerAndTests env ti sec []).outcome = ExecOutcome.ok false
          ∨ (runServerAndTests env ti sec []).outcome = ExecOutcome.exited 1) →
        ((runServerAndTests env ti sec []).trace).any isFailLogged = true) := by
  constructor
  · intro env files hpc hwf
    obtain ⟨h1, h2, h3, h4⟩ := runPass_spec env false files hpc hwf
    have hwf2 : (files.filter (fun f => !fileOk env f false)).all wfFile = true := by
      rw [List.all_eq_true] at hwf ⊢
      intro f hf
      exact hwf f (List.mem_of_mem_filter hf)
    by_cases hci : env.isCI = true
    · obtain ⟨g1, g2, g3, g4⟩ :=
        runPass_spec env true (files.filter (fun f => !fileOk env f false)) hpc hwf2
      refine ⟨((files.filter (fun f => !fileOk env f false)).filter
          (fun f => !fileOk env f true)).map TestFile.name, ?_⟩
      simp only [runTestFiles, h1, h2, h3, hci, Bool.not_true, Bool.false_eq_true, if_false,
        g1, g2, if_true]
    · simp only [Bool.not_eq_true] at hci
      refine ⟨(files.filter (fun f => !fileOk env f false)).map TestFile.name, ?_⟩
      simp only [runTestFiles, h1, h2, hci, Bool.not_false, if_true]
  · intro env ti sec ri cases hskip hri hcs hss hts hae h
    by_cases hst : ti.startServerThrows = true
    · simp only [runServerAndTests, hskip, hri, hss, hts, Bool.and_self, if_true,
        runServerAndTestsCore, hst, if_true]
      by_cases habort : ((sec || !ri.isFlaky) && env.isParallelCI) = true
      · simp [habort, isFailLogged]
      · simp only [Bool.not_eq_true] at habort
        simp [habort, isFailLogged]
    · simp only [Bool.not_eq_true] at hst
      rw [runServerAndTests_run_eq env ti sec ri cases hskip hri hcs hss hts hae hst] at h ⊢
      simp only [postServer] at h ⊢
      split_ifs at h ⊢ with h1 h2 h3 h4
      · simp [List.any_append, isFailLogged]
      · simp [List.any_append, isFailLogged]
      · simp at h
      · have hfl := runTests_fail_logged ri (sec || !ri.isFlaky) cases []
          (by simpa using h1)
        simp [List.any_append, isFailLogged, hfl]
      · have hfl := runTests_fail_logged ri (sec || !ri.isFlaky) cases []
          (by simpa using h1)
        simp [List.any_append, isFailLogged, hfl]

/-- C9 witness: the containment theorem applied to a failing one-file suite
(whose case throws) and to that file's single attempt. -/
theorem file_failures_contained_witness :
    (∃ failed,
      (runTestFiles { isCI := false, isParallelCI := false, isWindows := false }
        [{ name := "a.ts"
           behavior := fun _ =>
             { skipped := none
               runInfo := some { isFlaky := true, doNotFailOnWarning := false, testFunctionTimeout := 100 }
               tests := some [{ testDesc := "a", body := BodyBehavior.throwsSync "boom", logsEmitted := [] }]
               hasStartServer := true, hasTerminateServer := true, hasAfterEach := true
               startServerThrows := false, terminateLogs := [] } }] []).outcome
        = SchedOutcome.done failed)
    ∧ ((runServerAndTests { isCI := false, isParallelCI := false, isWindows := false }
        { skipped := none
          runInfo := some { isFlaky := true, doNotFailOnWarning := false, testFunctionTimeout := 100 }
          tests := some [{ testDesc := "a", body := BodyBehavior.throwsSync "boom", logsEmitted := [] }]
          hasStartServer := true, hasTerminateServer := true, hasAfterEach := true
          startServerThrows := false, terminateLogs := [] } false []).trace).any isFailLogged
      = true :=
  ⟨file_failures_contained.1 _ _ rfl (by decide),
   file_failures_contained.2 _ _ false _ _ rfl rfl rfl rfl rfl rfl (Or.inl (by decide))⟩

theorem runPass_abort_at (env : Env) (pre : List TestFile) (f : TestFile)
    (post : List TestFile)
    (hprewf : pre.all wfFile = true)
    (hpreok : pre.all (fun g => fileOk env g false) = true)
    (hf : (buildAndTest env f.name (f.behavior false) false []).outcome = ExecOutcome.exited 1)
    (hfname : (strEndsWith f.name ".ts" && strEndsWith (jsName f.name) ".mjs") = true) :
    (runPass env false (pre ++ f :: post) []).aborted = some (ExecOutcome.exited 1)
    ∧ attemptedFiles (runPass env false (pre ++ f :: post) []).trace
        = pre.map (fun g => (g.name, false)) ++ [(f.name, false)] := by
  induction pre with
  | nil =>
    simp only [List.nil_append, runPass, hf]
    refine ⟨trivial, ?_⟩
    rw [buildAndTest_attempted env f.name (f.behavior false) false [] hfname]
    simp
  | cons g rest ih =>
    simp only [List.all_cons, Bool.and_eq_true] at hprewf hpreok
    obtain ⟨hgwf, hrestwf⟩ := hprewf
    obtain ⟨hgok, hrestok⟩ := hpreok
    have hgname := wfFile_name g hgwf
    have hgout : (buildAndTest env g.name (g.behavior false) false []).outcome
        = ExecOutcome.ok true := by
      simp only [fileOk, beq_iff_eq] at hgok
      exact hgok
    have hglogs : (buildAndTest env g.name (g.behavior false) false []).logs = [] := by
      rw [buildAndTest_logs env g.name (g.behavior false) false [] hgname]
      rcases runServerAndTests_logs env (g.behavior false) false with h | h
      · exact h
      · rw [buildAndTest_outcome env g.name (g.behavior false) false [] hgname, h] at hgout
        cases hgout
    obtain ⟨ih1, ih2⟩ := ih hrestwf hrestok
    constructor
    · simp only [List.cons_append, runPass, hgout, hglogs]
      exact ih1
    · simp only [List.cons_append, runPass, hgout, hglogs, List.append_eq]
      rw [attemptedFiles_append,
        buildAndTest_attempted env g.name (g.behavior false) false [] hgname, ih2]
      simp

/-- C6: in parallel-CI mode, a failure on a file's final attempt — final
meaning pass 2 is executing, or the file's run declaration does not mark it
flaky — triggers immediate process termination with exit status 1, and the
scheduler attempts no further file after such a failure. -/
theorem parallel_ci_final_failure_aborts :
    (∀ (env : Env) (ti : TestInfo) (sec : Bool) (ri : RunInfo),
        env.isParallelCI = true → wfInfo ti = true →
        ti.runInfo = some ri → (sec || !ri.isFlaky) = true →
        (runServerAndTests { env with isParallelCI := false } ti sec []).outcome
          = ExecOutcome.ok false →
        (runServerAndTests env ti sec []).outcome = ExecOutcome.exited 1)
    ∧ (∀ (env : Env) (pre post : List TestFile) (f : TestFile) (ri : RunInfo),
        env.isParallelCI = true →
        pre.all wfFile = true → wfFile f = true →
        pre.all (fun g => fileOk env g false) = true →
        (f.behavior false).runInfo = some ri → ri.isFlaky = false →
        fileOk { env with isParallelCI := false } f false = false →
        (runTestFiles env (pre ++ f :: post) []).outcome = SchedOutcome.exited 1
        ∧ attemptedFiles (runTestFiles env (pre ++ f :: post) []).trace
            = pre.map (fun g => (g.name, false)) ++ [(f.name, false)]) := by
  constructor
  · intro env ti sec ri hpc hwf hri hfin h
    have hpc' : ({ env with isParallelCI := false } : Env).isParallelCI = false := rfl
    rw [runServerAndTests_ok_of_noPar { env with isParallelCI := false } ti sec hpc' hwf] at h
    simp only [ExecOutcome.ok.injEq] at h
    have haS : attemptSuccess env ti = false := h
    rw [runServerAndTests_outcome env ti sec hwf, haS]
    simp [tiIsFlaky, hri, hfin, hpc]
  · intro env pre post f ri hpc hprewf hfwf hpreok hfri hflk hff
    have hwfi := wfFile_wfInfo f false hfwf
    have hfname := wfFile_name f hfwf
    have hpc' : ({ env with isParallelCI := false } : Env).isParallelCI = false := rfl
    have haS' : attemptSuccess { env with isParallelCI := false } (f.behavior false) = false := by
      rw [fileOk_eq_attemptSuccess { env with isParallelCI := false } f false hpc' hfwf] at hff
      exact hff
    have haS : attemptSuccess env (f.behavior false) = false := haS'
    have hexit : (runServerAndTests env (f.behavior false) false []).outcome
        = ExecOutcome.exited 1 := by
      rw [runServerAndTests_outcome env (f.behavior false) false hwfi, haS]
      simp [tiIsFlaky, hfri, hflk, hpc]
    have hbt : (buildAndTest env f.name (f.behavior false) false []).outcome
        = ExecOutcome.exited 1 := by
      rw [buildAndTest_outcome env f.name (f.behavior false) false [] hfname, hexit]
    obtain ⟨ha, hatt⟩ := runPass_abort_at env pre f post hprewf hpreok hbt hfname
    constructor
    · simp only [runTestFiles, ha, abortedOutcome]
    · simp only [runTestFiles, ha]
      exact hatt

/-- C6 witness: a parallel-CI run over three files where the second is
non-flaky and fails — the process exits with status 1 and the third file is
never attempted. -/
theorem parallel_ci_final_failure_aborts_witness :
    (runTestFiles { isCI := true, isParallelCI := true, isWindows := false }
      ([{ name := "a.ts"
          behavior := fun _ =>
            { skipped := none
              runInfo := some { isFlaky := true, doNotFailOnWarning := false, testFunctionTimeout := 100 }
              tests := some [{ testDesc := "a", body := BodyBehavior.resolvesAt 0, logsEmitted := [] }]
              hasStartServer := true, hasTerminateServer := true, hasAfterEach := true
              startServerThrows := false, terminateLogs := [] } }]
        ++ { name := "b.ts"
             behavior := fun _ =>
               { skipped := none
                 runInfo := some { isFlaky := false, doNotFailOnWarning := false, testFunctionTimeout := 100 }
                 tests := some [{ testDesc := "b", body := BodyBehavior.throwsSync "boom", logsEmitted := [] }]
                 hasStartServer := true, hasTerminateServer := true, hasAfterEach := true
                 startServerThrows := false, terminateLogs := [] } }
          :: [{ name := "c.ts"
                behavior := fun _ =>
                  { skipped := none
                    runInfo := some { isFlaky := true, doNotFailOnWarning := false, testFunctionTimeout := 100 }
                    tests := some [{ testDesc := "c", body := BodyBehavior.resolvesAt 0, logsEmitted := [] }]
                    hasStartServer := true, hasTerminateServer := true, hasAfterEach := true
                    startServerThrows := false, terminateLogs := [] } }]) []).outcome
      = SchedOutcome.exited 1
    ∧ attemptedFiles (runTestFiles { isCI := true, isParallelCI := true, isWindows := false }
        ([{ name := "a.ts"
            behavior := fun _ =>
              { skipped := none
                runInfo := some { isFlaky := true, doNotFailOnWarning := false, testFunctionTimeout := 100 }
                tests := some [{ testDesc := "a", body := BodyBehavior.resolvesAt 0, logsEmitted := [] }]
                hasStartServer := true, hasTerminateServer := true, hasAfterEach := true
                startServerThrows := false, terminateLogs := [] } }]
          ++ { name := "b.ts"
               behavior := fun _ =>
                 { skipped := none
                   runInfo := some { isFlaky := false, doNotFailOnWarning := false, testFunctionTimeout := 100 }
                   tests := some [{ testDesc := "b", body := BodyBehavior.throwsSync "boom", logsEmitted := [] }]
                   hasStartServer := true, hasTerminateServer := true, hasAfterEach := true
                   startServerThrows := false, terminateLogs := [] } }
            :: [{ name := "c.ts"
                  behavior := fun _ =>
                    { skipped := none
                      runInfo := some { isFlaky := true, doNotFailOnWarning := false, testFunctionTimeout := 100 }
                      tests := some [{ testDesc := "c", body := BodyBehavior.resolvesAt 0, logsEmitted := [] }]
                      hasStartServer := true, hasTerminateServer := true, hasAfterEach := true
                      startServerThrows := false, terminateLogs := [] } }]) []).trace
      = [("a.ts", false), ("b.ts", false)] := by
  have h := parallel_ci_final_failure_aborts.2
    { isCI := true, isParallelCI := true, isWindows := false }
    [{ name := "a.ts"
       behavior := fun _ =>
         { skipped := none
           runInfo := some { isFlaky := true, doNotFailOnWarning := false, testFunctionTimeout := 100 }
           tests := some [{ testDesc := "a", body := BodyBehavior.resolvesAt 0, logsEmitted := [] }]
           hasStartServer := true, hasTerminateServer := true, hasAfterEach := true
           startServerThrows := false, terminateLogs := [] } }]
    [{ name := "c.ts"
       behavior := fun _ =>
         { skipped := none
           runInfo := some { isFlaky := true, doNotFailOnWarning := false, testFunctionTimeout := 100 }
           tests := some [{ testDesc := "c", body := BodyBehavior.resolvesAt 0, logsEmitted := [] }]
           hasStartServer := true, hasTerminateServer := true, hasAfterEach := true
           startServerThrows := false, terminateLogs := [] } }]
    { name := "b.ts"
      behavior := fun _ =>
        { skipped := none
          runInfo := some { isFlaky := false, doNotFailOnWarning := false, testFunctionTimeout := 100 }
          tests := some [{ testDesc := "b", body := BodyBehavior.throwsSync "boom", logsEmitted := [] }]
          hasStartServer := true, hasTerminateServer := true, hasAfterEach := true
          startServerThrows := false, terminateLogs := [] } }
    { isFlaky := false, doNotFailOnWarning := false, testFunctionTimeout := 100 }
    rfl (by decide) (by decide) (by decide) rfl rfl (by decide)
  exact ⟨h.1, by rw [h.2]; decide⟩
